import Mathlib

/-!
Verification of the GraphQL-schema MCP server (src/index.mjs).

The server loads a GraphQL schema once at startup and registers a fixed set
of tools, each a pure lookup against the immutable schema.  We embed the
schema value produced by the external `buildSchema` collaborator as a plain
data structure and translate each registered tool handler into a Lean
function over it.  Strings produced by the external canonical printer
(`print(astNode)`) are carried as opaque `String` payloads stored in the
`astNode` fields, and `field.type.toString()` is carried as the `typeSig`
string, exactly as the handlers consume them.
-/

/-- Model of the JS `s.startsWith(p)` test used by the handlers:
`p` is a prefix of `s`, compared on the underlying character list. -/
def strStartsWith (s p : String) : Bool :=
  p.data.isPrefixOf s.data

/-- JS `Array.prototype.join(sep)`: empty string on the empty array,
otherwise the elements interleaved with the separator. -/
def joinSep (sep : String) : List String → String
  | [] => ""
  | [x] => x
  | x :: y :: ys => x ++ sep ++ joinSep sep (y :: ys)

/-- One entry of a field map (`type.getFields()[name]` in graphql-js):
the canonical rendering `field.type.toString()` of its result type
reference, and the canonical printer output `print(field.astNode)` when the
field carries an original syntax node (`none` when `astNode` is absent). -/
structure FieldDef where
  typeSig : String
  astNode : Option String
deriving DecidableEq, Repr

/-- One entry of the schema type map (`schema.getTypeMap()[name]`): optional
description, the runtime kind label (`type.constructor.name`), the printed
original syntax node when present, and — exactly when the runtime object
offers `getFields` (object, interface and input-object kinds) — the field
map as an ordered name/definition association list. -/
structure TypeDef where
  description : Option String
  kind : String
  astNode : Option String
  fields : Option (List (String × FieldDef))
deriving DecidableEq, Repr

/-- The immutable schema value the tool closures capture: the full type map
in construction order, plus the three optional root-operation field maps
`schema.getQueryType()?.getFields()` (and mutation / subscription).  A root
entry is `none` exactly when the root operation type is absent from the
schema; a present root type always yields `some` field map, possibly empty,
because `getFields()` returns an (always truthy) object. -/
structure GQLSchema where
  typeMap : List (String × TypeDef)
  queryFields : Option (List (String × FieldDef))
  mutationFields : Option (List (String × FieldDef))
  subscriptionFields : Option (List (String × FieldDef))
deriving DecidableEq, Repr

/-- JS property lookup `fields[fieldName]` on a field map. -/
def lookupField (fields : List (String × FieldDef)) (fieldName : String) : Option FieldDef :=
  List.lookup fieldName fields

/-- JS property lookup `schema.getTypeMap()[typeName]`. -/
def lookupType (s : GQLSchema) (typeName : String) : Option TypeDef :=
  List.lookup typeName s.typeMap

/-- Shared body of the three `get-*-field` handlers:
`fields[fieldName]?.astNode ? print(fields[fieldName].astNode) : "Field not found or has no definition"`. -/
def fieldLookupText (fields : List (String × FieldDef)) (fieldName : String) : String :=
  match lookupField fields fieldName with
  | some f =>
    match f.astNode with
    | some ast => ast
    | none => "Field not found or has no definition"
  | none => "Field not found or has no definition"

/-- Handler of `list-query-fields`; `none` when the tool is not registered
(query root type absent). -/
def listQueryFields (s : GQLSchema) : Option String :=
  s.queryFields.map fun fields => joinSep ", " (fields.map Prod.fst)

/-- Handler of `get-query-field`; `none` when the tool is not registered. -/
def getQueryField (s : GQLSchema) (fieldName : String) : Option String :=
  s.queryFields.map fun fields => fieldLookupText fields fieldName

/-- Handler of `list-mutation-fields`; `none` when the tool is not registered. -/
def listMutationFields (s : GQLSchema) : Option String :=
  s.mutationFields.map fun fields => joinSep ", " (fields.map Prod.fst)

/-- Handler of `get-mutation-field`; `none` when the tool is not registered. -/
def getMutationField (s : GQLSchema) (fieldName : String) : Option String :=
  s.mutationFields.map fun fields => fieldLookupText fields fieldName

/-- Handler of `list-subscription-fields`; `none` when the tool is not registered. -/
def listSubscriptionFields (s : GQLSchema) : Option String :=
  s.subscriptionFields.map fun fields => joinSep ", " (fields.map Prod.fst)

/-- Handler of `get-subscription-field`; `none` when the tool is not registered. -/
def getSubscriptionField (s : GQLSchema) (fieldName : String) : Option String :=
  s.subscriptionFields.map fun fields => fieldLookupText fields fieldName

/-- Handler of `list-types`: comma-joined type-map keys, the internal
double-underscore introspection types filtered out. -/
def listTypes (s : GQLSchema) : String :=
  joinSep ", " ((s.typeMap.map Prod.fst).filter fun t => !strStartsWith t "__")

/-- Handler of `get-type`: not-found message, synthesized summary for a
type without an original syntax node, or the printed syntax node. -/
def getType (s : GQLSchema) (typeName : String) : String :=
  match lookupType s typeName with
  | none => "Type \"" ++ typeName ++ "\" not found"
  | some t =>
    match t.astNode with
    | none =>
      "Type: " ++ typeName ++ "\nDescription: " ++ t.description.getD "No description" ++
        "\nKind: " ++ t.kind
    | some ast => ast

/-- Handler of `get-type-fields`: not-found message, non-object message for
a type without `getFields`, or newline-joined `name: typeSig` lines. -/
def getTypeFields (s : GQLSchema) (typeName : String) : String :=
  match lookupType s typeName with
  | none => "Type \"" ++ typeName ++ "\" not found"
  | some t =>
    match t.fields with
    | none => "Type \"" ++ typeName ++ "\" is not an object type with fields"
    | some fs => joinSep "\n" (fs.map fun p => p.1 ++ ": " ++ p.2.typeSig)

/-- Atom of the modelled regular-expression fragment: the metacharacter
`.` or a literal character. -/
inductive RegexAtom where
  | any : RegexAtom
  | lit : Char → RegexAtom
deriving DecidableEq, Repr

/-- One compiled pattern item: an atom, optionally under a postfix `*`. -/
inductive RItem where
  | once : RegexAtom → RItem
  | star : RegexAtom → RItem
deriving DecidableEq, Repr

/-- Test of one atom against one character, under the case-insensitive `i`
flag the handler always passes.  JS `.` matches every character except the
four line terminators. -/
def atomTest : RegexAtom → Char → Bool
  | RegexAtom.any, c =>
    !(c = '\n' || c = '\r' || c = ' ' || c = ' ')
  | RegexAtom.lit l, c => l.toLower == c.toLower

/-- Compilation of a single pattern character.  Modelled fragment of the JS
regular-expression syntax: `.` and plain literal characters; every other
metacharacter (grouping, classes, alternation, anchors, escapes, or a
quantifier with nothing to repeat) is outside the modelled fragment and
compiles to `none`.  In particular the pattern `(` — an unterminated group
— is a genuine JS `SyntaxError`. -/
def compileAtom (c : Char) : Option RegexAtom :=
  if c = '.' then some RegexAtom.any
  else if c = '(' || c = ')' || c = '[' || c = ']' || c = '\x7b' || c = '\x7d' ||
      c = '|' || c = '\\' || c = '^' || c = '$' || c = '*' || c = '+' || c = '?' then
    none
  else some (RegexAtom.lit c)

/-- Compilation of a pattern character list: each atom may be followed by a
postfix `*`. -/
def compileItems : List Char → Option (List RItem)
  | [] => some []
  | c :: '*' :: rest =>
    (compileAtom c).bind fun a => (compileItems rest).map fun r => RItem.star a :: r
  | c :: rest =>
    (compileAtom c).bind fun a => (compileItems rest).map fun r => RItem.once a :: r

/-- Model of `new RegExp(pattern, "i")`: `none` when the constructor throws
on an invalid pattern. -/
def compileRegex (pattern : String) : Option (List RItem) :=
  compileItems pattern.data

/-- Suffixes of `s` reachable by consuming zero or more characters matching
the starred atom `a`. -/
def starSuffixes (a : RegexAtom) : List Char → List (List Char)
  | [] => [[]]
  | c :: cs => (c :: cs) :: (if atomTest a c then starSuffixes a cs else [])

/-- Matching of a compiled pattern against a prefix of the character list. -/
def matchHere : List RItem → List Char → Bool
  | [], _ => true
  | RItem.once _ :: _, [] => false
  | RItem.once a :: rs, c :: cs => atomTest a c && matchHere rs cs
  | RItem.star a :: rs, s => (starSuffixes a s).any fun t => matchHere rs t

/-- All suffixes of a character list, longest first. -/
def allSuffixes : List Char → List (List Char)
  | [] => [[]]
  | c :: cs => (c :: cs) :: allSuffixes cs

/-- Model of `regex.test(s)` (no `g` flag): the pattern matches starting at
some position of `s`. -/
def regexTest (r : List RItem) (s : String) : Bool :=
  (allSuffixes s.data).any fun t => matchHere r t

/-- JS `matching.join(", ") || "None"`: the joined string, or `"None"` when
that string is empty (falsy). -/
def joinOrNone (l : List String) : String :=
  let j := joinSep ", " l
  if j = "" then "None" else j

/-- Handler of `search-schema`.  `none` models the handler throwing when
`new RegExp(pattern, "i")` rejects the pattern; otherwise the two result
lines built from the type-name matches and the qualified field-name
matches. -/
def searchSchema (s : GQLSchema) (pattern : String) : Option String :=
  (compileRegex pattern).map fun searchRegex =>
    let matchingTypes := (s.typeMap.map Prod.fst).filter fun t =>
      !strStartsWith t "__" && regexTest searchRegex t
    let matchingFields := (s.typeMap.filter fun p => !strStartsWith p.1 "__").flatMap fun p =>
      match p.2.fields with
      | some fs =>
        ((fs.map Prod.fst).filter fun fn => regexTest searchRegex fn).map fun fn =>
          p.1 ++ "." ++ fn
      | none => []
    "Matching types: " ++ joinOrNone matchingTypes ++
      "\nMatching fields: " ++ joinOrNone matchingFields

/-- Names of the tools the server registers for a loaded schema: each
`list-*-fields` / `get-*-field` pair is registered under the truthiness
guard on the respective root field map, then the four unconditional
tools. -/
def registeredTools (s : GQLSchema) : List String :=
  (if s.queryFields.isSome then ["list-query-fields", "get-query-field"] else []) ++
    (if s.mutationFields.isSome then ["list-mutation-fields", "get-mutation-field"] else []) ++
    (if s.subscriptionFields.isSome then
      ["list-subscription-fields", "get-subscription-field"]
    else []) ++
    ["list-types", "get-type", "get-type-fields", "search-schema"]

/-- Outcome of process startup: either the server is up with its registered
tool list, or the process exited with a status code after writing the given
lines to the error stream. -/
inductive StartupOutcome where
  | started : List String → StartupOutcome
  | exited : Nat → List String → StartupOutcome
deriving DecidableEq, Repr

/-- Startup sequence of `index.mjs` after argument handling: `loadSchema`
followed by tool registration.  The filesystem read is modelled by its
outcome `fileContent` (`none` when `readFile` rejects) and the external
`buildSchema` collaborator by the `build` parameter. -/
def loadAndStart (resolvedPath : String) (fileContent : Option String)
    (build : String → Except String GQLSchema) : StartupOutcome :=
  match fileContent with
  | none =>
    StartupOutcome.exited 1
      ["Error: Schema file not found at " ++ resolvedPath,
        "Usage: node index.mjs [path/to/schema.graphqls]"]
  | some content =>
    match build content with
    | Except.error msg => StartupOutcome.exited 1 ["Error loading schema: " ++ msg]
    | Except.ok s => StartupOutcome.started (registeredTools s)

/-- Stated from the spec wording, for comparison with the handler output:
every type name in the schema that does not start with the reserved
introspection prefix, in type-map order. -/
def nonInternalTypeNames (s : GQLSchema) : List String :=
  (s.typeMap.map Prod.fst).filter fun t => !strStartsWith t "__"

/-- Stated from the spec wording, for comparison with the handler output:
every `TypeName.fieldName` pair drawn from all non-internal field-bearing
types, in declaration order. -/
def allFieldPairs (s : GQLSchema) : List String :=
  (s.typeMap.filter fun p => !strStartsWith p.1 "__").flatMap fun p =>
    match p.2.fields with
    | some fs => fs.map fun q => p.1 ++ "." ++ q.1
    | none => []

/-- Splitting of a character list at every occurrence of the separator. -/
def splitOnChar (c : Char) : List Char → List (List Char)
  | [] => [[]]
  | d :: ds =>
    match splitOnChar c ds with
    | [] => [[]]
    | r :: rs => if d = c then [] :: r :: rs else (d :: r) :: rs

/-- Lines of a text: empty text has no lines, otherwise the segments
between newline separators. -/
def textLines (s : String) : List String :=
  if s.data = [] then [] else (splitOnChar '\n' s.data).map fun l => String.mk l

/-- Field map of the example `Query` root type. -/
def queryTypeFields : List (String × FieldDef) :=
  [("user", ⟨"User", some "user(id: ID!): User"⟩)]

/-- Field map of the example `User` object type. -/
def userTypeFields : List (String × FieldDef) :=
  [("id", ⟨"ID!", some "id: ID!"⟩)]

/-- The example `Query` type definition. -/
def queryTypeDef : TypeDef :=
  ⟨none, "GraphQLObjectType", some "type Query \x7b\n  user(id: ID!): User\n\x7d",
    some queryTypeFields⟩

/-- The example `User` type definition. -/
def userTypeDef : TypeDef :=
  ⟨none, "GraphQLObjectType", some "type User \x7b\n  id: ID!\n\x7d", some userTypeFields⟩

/-- The built-in `Boolean` scalar: no syntax node, no fields. -/
def booleanTypeDef : TypeDef :=
  ⟨some "The `Boolean` scalar type represents `true` or `false`.",
    "GraphQLScalarType", none, none⟩

/-- An internal introspection type, carried in the type map under a
double-underscore name. -/
def schemaIntrospectionTypeDef : TypeDef :=
  ⟨some "A GraphQL Schema defines the capabilities of a GraphQL server.",
    "GraphQLObjectType", none, some [("types", ⟨"[__Type!]!", none⟩)]⟩

/-- Concrete schema used by the witnesses: the value `buildSchema` produces
for a document with a `Query` root holding one field `user`, a `User`
object type, the built-in `Boolean` scalar, one introspection type, and no
mutation or subscription root. -/
def exampleSchema : GQLSchema :=
  ⟨[("Query", queryTypeDef), ("User", userTypeDef), ("Boolean", booleanTypeDef),
    ("__Schema", schemaIntrospectionTypeDef)],
    some queryTypeFields, none, none⟩

theorem splitOnChar_ne_nil (c : Char) (l : List Char) : splitOnChar c l ≠ [] := by
  cases l with
  | nil => simp [splitOnChar]
  | cons d ds =>
    simp only [splitOnChar]
    cases splitOnChar c ds with
    | nil => simp
    | cons r rs =>
      by_cases hd : d = c <;> simp [hd]

theorem splitOnChar_not_mem {c : Char} {l : List Char} (h : c ∉ l) :
    splitOnChar c l = [l] := by
  induction l with
  | nil => rfl
  | cons d ds ih =>
    have hd : d ≠ c := fun he => h (he ▸ List.mem_cons_self d ds)
    have hds : c ∉ ds := fun hm => h (List.mem_cons_of_mem d hm)
    simp [splitOnChar, ih hds, hd]

theorem splitOnChar_append {c : Char} {a b : List Char} (h : c ∉ a) :
    splitOnChar c (a ++ c :: b) = a :: splitOnChar c b := by
  induction a with
  | nil =>
    cases hb : splitOnChar c b with
    | nil => exact absurd hb (splitOnChar_ne_nil c b)
    | cons r rs => simp [splitOnChar, hb]
  | cons d ds ih =>
    have hd : d ≠ c := fun he => h (he ▸ List.mem_cons_self d ds)
    have hds : c ∉ ds := fun hm => h (List.mem_cons_of_mem d hm)
    simpa [splitOnChar, ih hds] using fun he => absurd he hd

theorem strMk_data (s : String) : String.mk s.data = s := by
  cases s
  rfl

theorem textLines_joinSep (l : List String)
    (h : ∀ x ∈ l, x.data ≠ [] ∧ '\n' ∉ x.data) :
    textLines (joinSep "\n" l) = l := by
  induction l with
  | nil => rfl
  | cons x xs ih =>
    cases xs with
    | nil =>
      obtain ⟨hx1, hx2⟩ := h x (List.mem_cons_self x [])
      simp [joinSep, textLines, hx1, splitOnChar_not_mem hx2, strMk_data]
    | cons y ys =>
      have hx := h x (List.mem_cons_self x (y :: ys))
      have hxs : ∀ z ∈ y :: ys, z.data ≠ [] ∧ '\n' ∉ z.data := fun z hz =>
        h z (List.mem_cons_of_mem x hz)
      have hdata : (joinSep "\n" (x :: y :: ys)).data =
          x.data ++ '\n' :: (joinSep "\n" (y :: ys)).data := by
        simp [joinSep, String.data_append]
      have hrest := ih hxs
      have hne : (joinSep "\n" (y :: ys)).data ≠ [] := by
        intro hnil
        rw [textLines, if_pos hnil] at hrest
        exact (List.cons_ne_nil y ys) hrest.symm
      rw [textLines, if_neg (by simp [hdata]), hdata, splitOnChar_append hx.2]
      rw [textLines, if_neg hne] at hrest
      simp [strMk_data, hrest]

theorem flatMap_nil_of {α β : Type} (l : List α) (f : α → List β)
    (h : ∀ a ∈ l, f a = []) : l.flatMap f = [] := by
  induction l with
  | nil => rfl
  | cons x xs ih =>
    simp [List.flatMap_cons, h x (List.mem_cons_self x xs),
      ih fun a ha => h a (List.mem_cons_of_mem x ha)]

theorem flatMap_congr {α β : Type} {l : List α} {f g : α → List β}
    (h : ∀ a ∈ l, f a = g a) : l.flatMap f = l.flatMap g := by
  induction l with
  | nil => rfl
  | cons x xs ih =>
    simp [List.flatMap_cons, h x (List.mem_cons_self x xs),
      ih fun a ha => h a (List.mem_cons_of_mem x ha)]

theorem matchHere_star_any (t : List Char) :
    matchHere [RItem.star RegexAtom.any] t = true := by
  cases t <;> simp [matchHere, starSuffixes]

theorem regexTest_dotstar (s : String) :
    regexTest [RItem.star RegexAtom.any] s = true := by
  rw [regexTest]
  cases s.data <;> simp [allSuffixes, matchHere_star_any]

/-- C1 counterexample: with the empty pattern — which as a regular
expression matches every string — `search-schema` on a schema holding any
non-internal type returns all type names and all field pairs, not "None"
on both result lines. -/
theorem search_schema_empty_pattern_cex :
    searchSchema exampleSchema "" =
      some "Matching types: Query, User, Boolean\nMatching fields: Query.user, User.id" ∧
    searchSchema exampleSchema "" ≠ some "Matching types: None\nMatching fields: None" := by
  decide

/-- C1 (amended): for every pattern the regular-expression constructor
accepts that matches no type name and no field name of the schema,
`search-schema` shows "None" on both result lines.  (The empty pattern is
not such a pattern: it matches every name.) -/
theorem search_schema_no_match_none (s : GQLSchema) (pattern : String) (r : List RItem)
    (hc : compileRegex pattern = some r)
    (ht : ∀ n ∈ s.typeMap.map Prod.fst, regexTest r n = false)
    (hf : ∀ p ∈ s.typeMap, ∀ q ∈ p.2.fields.getD [], regexTest r q.1 = false) :
    searchSchema s pattern = some "Matching types: None\nMatching fields: None" := by
  have h1 : (s.typeMap.map Prod.fst).filter
      (fun t => !strStartsWith t "__" && regexTest r t) = [] := by
    refine List.filter_eq_nil_iff.mpr ?_
    intro a ha
    simp [ht a ha]
  have h2 : (s.typeMap.filter fun p => !strStartsWith p.1 "__").flatMap
      (fun p =>
        match p.2.fields with
        | some fs =>
          ((fs.map Prod.fst).filter fun fn => regexTest r fn).map fun fn => p.1 ++ "." ++ fn
        | none => []) = [] := by
    refine flatMap_nil_of _ _ ?_
    intro p hp
    have hpm : p ∈ s.typeMap := (List.mem_filter.mp hp).1
    cases hfs : p.2.fields with
    | none => simp [hfs]
    | some fs =>
      have hflt : (fs.map Prod.fst).filter (fun fn => regexTest r fn) = [] := by
        refine List.filter_eq_nil_iff.mpr ?_
        intro fn hfn
        obtain ⟨q, hq, rfl⟩ := List.mem_map.mp hfn
        simp [hf p hpm q (by simp [hfs, hq])]
      simp [hfs, hflt]
  simp only [searchSchema, hc, Option.map_some', h1, h2]
  rfl

/-- C1 witness: the literal pattern "zzz" matches no name of the example
schema, so both result lines show "None". -/
theorem search_schema_no_match_none_witness :
    searchSchema exampleSchema "zzz" =
      some "Matching types: None\nMatching fields: None" :=
  search_schema_no_match_none exampleSchema "zzz"
    [RItem.once (RegexAtom.lit 'z'), RItem.once (RegexAtom.lit 'z'),
      RItem.once (RegexAtom.lit 'z')]
    (by decide) (by decide) (by decide)

/-- C2: `search-schema` with pattern `.*` returns, on its first line, every
non-internal type name and, on its second line, every `TypeName.fieldName`
pair drawn from all non-internal field-bearing types. -/
theorem search_schema_dotstar_all (s : GQLSchema) :
    searchSchema s ".*" =
      some ("Matching types: " ++ joinOrNone (nonInternalTypeNames s) ++
        "\nMatching fields: " ++ joinOrNone (allFieldPairs s)) := by
  have hc : compileRegex ".*" = some [RItem.star RegexAtom.any] := by decide
  have h1 : (s.typeMap.map Prod.fst).filter
      (fun t => !strStartsWith t "__" && regexTest [RItem.star RegexAtom.any] t) =
      nonInternalTypeNames s := by
    rw [nonInternalTypeNames]
    refine List.filter_congr ?_
    intro x hx
    simp [regexTest_dotstar]
  have h2 : (s.typeMap.filter fun p => !strStartsWith p.1 "__").flatMap
      (fun p =>
        match p.2.fields with
        | some fs =>
          ((fs.map Prod.fst).filter fun fn => regexTest [RItem.star RegexAtom.any] fn).map
            fun fn => p.1 ++ "." ++ fn
        | none => []) = allFieldPairs s := by
    rw [allFieldPairs]
    refine flatMap_congr ?_
    intro p hp
    cases hfs : p.2.fields with
    | none => simp [hfs]
    | some fs =>
      have hflt : (fs.map Prod.fst).filter
          (fun fn => regexTest [RItem.star RegexAtom.any] fn) = fs.map Prod.fst := by
        refine List.filter_eq_self.mpr ?_
        intro a ha
        simp [regexTest_dotstar]
      simp [hfs, hflt, List.map_map, Function.comp]
  simp only [searchSchema, hc, Option.map_some', h1, h2]

/-- C3: for every type name absent from the schema type map, `get-type` and
`get-type-fields` both return (rather than throw) a not-found text message
containing the queried name. -/
theorem get_type_not_found (s : GQLSchema) (typeName : String)
    (h : lookupType s typeName = none) :
    getType s typeName = "Type \"" ++ typeName ++ "\" not found" ∧
    getTypeFields s typeName = "Type \"" ++ typeName ++ "\" not found" := by
  constructor <;> simp [getType, getTypeFields, h]

/-- C3 witness: the name "Missing" is not in the example schema. -/
theorem get_type_not_found_witness :
    getType exampleSchema "Missing" = "Type \"Missing\" not found" ∧
    getTypeFields exampleSchema "Missing" = "Type \"Missing\" not found" := by
  have h := get_type_not_found exampleSchema "Missing" (by decide)
  exact ⟨h.1.trans (by decide), h.2.trans (by decide)⟩

/-- C4: for every field-bearing type of the schema, the `get-type-fields`
text has exactly one line per declared field, each line `name: typeSig`,
in declaration order.  The side conditions state that field names and
type signatures are nonempty and newline-free, which the GraphQL name and
type grammars guarantee. -/
theorem get_type_fields_lines (s : GQLSchema) (typeName : String) (t : TypeDef)
    (fs : List (String × FieldDef))
    (h1 : lookupType s typeName = some t) (h2 : t.fields = some fs)
    (h3 : ∀ p ∈ fs, p.1.data ≠ [] ∧ '\n' ∉ p.1.data ∧ '\n' ∉ p.2.typeSig.data) :
    textLines (getTypeFields s typeName) =
      fs.map (fun p => p.1 ++ ": " ++ p.2.typeSig) ∧
    (textLines (getTypeFields s typeName)).length = fs.length := by
  have hmain : textLines (getTypeFields s typeName) =
      fs.map fun p => p.1 ++ ": " ++ p.2.typeSig := by
    simp only [getTypeFields, h1, h2]
    refine textLines_joinSep _ ?_
    intro x hx
    obtain ⟨p, hp, rfl⟩ := List.mem_map.mp hx
    obtain ⟨hn1, hn2, hn3⟩ := h3 p hp
    have hcolon : (": " : String).data = [':', ' '] := rfl
    constructor
    · intro hnil
      simp only [String.data_append, hcolon, List.append_eq_nil] at hnil
      exact absurd hnil.1.2 (by simp)
    · simp only [String.data_append, hcolon, List.mem_append]
      push_neg
      refine ⟨⟨hn2, by decide⟩, hn3⟩
  exact ⟨hmain, by rw [hmain, List.length_map]⟩

/-- C4 witness: the example `Query` type has one field, and the tool output
has exactly that one line. -/
theorem get_type_fields_lines_witness :
    textLines (getTypeFields exampleSchema "Query") = ["user: User"] ∧
    (textLines (getTypeFields exampleSchema "Query")).length = 1 := by
  have h := get_type_fields_lines exampleSchema "Query" queryTypeDef queryTypeFields
    (by decide) (by decide) (by decide)
  exact ⟨h.1.trans (by decide), h.2.trans (by decide)⟩

/-- C5: each `get-*-field` tool applies the shared lookup body to its root
field map, and that body returns the printed definition exactly when the
field exists and carries a syntax node, and the fixed not-found message —
as a normal text result — when the field is absent or has no syntax
node. -/
theorem get_operation_field_spec (s : GQLSchema) (fields : List (String × FieldDef))
    (fieldName : String) :
    (s.queryFields = some fields →
      getQueryField s fieldName = some (fieldLookupText fields fieldName)) ∧
    (s.mutationFields = some fields →
      getMutationField s fieldName = some (fieldLookupText fields fieldName)) ∧
    (s.subscriptionFields = some fields →
      getSubscriptionField s fieldName = some (fieldLookupText fields fieldName)) ∧
    (∀ f ast, lookupField fields fieldName = some f → f.astNode = some ast →
      fieldLookupText fields fieldName = ast) ∧
    (lookupField fields fieldName = none →
      fieldLookupText fields fieldName = "Field not found or has no definition") ∧
    (∀ f, lookupField fields fieldName = some f → f.astNode = none →
      fieldLookupText fields fieldName = "Field not found or has no definition") := by
  refine ⟨?_, ?_, ?_, ?_, ?_, ?_⟩ <;> intros <;>
    simp [getQueryField, getMutationField, getSubscriptionField, fieldLookupText, *]

/-- C5 witness: the field "missing" is absent from the example query root,
and `get-query-field` returns the fixed message as a text result. -/
theorem get_operation_field_spec_witness :
    getQueryField exampleSchema "missing" =
      some "Field not found or has no definition" := by
  have h := get_operation_field_spec exampleSchema queryTypeFields "missing"
  rw [h.1 rfl, h.2.2.2.2.1 (by decide)]

/-- C6: a `list-*-fields` / `get-*-field` tool pair is registered exactly
when the respective root operation type is present in the schema; a
present-but-empty root still registers its pair, since presence is what
the registration guard tests. -/
theorem operation_tools_registered_iff (s : GQLSchema) :
    (("list-query-fields" ∈ registeredTools s ∧
        "get-query-field" ∈ registeredTools s) ↔ s.queryFields.isSome = true) ∧
    (("list-mutation-fields" ∈ registeredTools s ∧
        "get-mutation-field" ∈ registeredTools s) ↔ s.mutationFields.isSome = true) ∧
    (("list-subscription-fields" ∈ registeredTools s ∧
        "get-subscription-field" ∈ registeredTools s) ↔
      s.subscriptionFields.isSome = true) := by
  obtain ⟨tm, q, m, sub⟩ := s
  cases q <;> cases m <;> cases sub <;>
    simp [registeredTools, List.mem_cons, String.ext_iff]

/-- C6 witness: the example schema has a query root and no mutation root,
so the query tool pair is registered and the mutation tool pair is not. -/
theorem operation_tools_registered_iff_witness :
    ("list-query-fields" ∈ registeredTools exampleSchema ∧
      "get-query-field" ∈ registeredTools exampleSchema) ∧
    ¬ ("list-mutation-fields" ∈ registeredTools exampleSchema ∧
      "get-mutation-field" ∈ registeredTools exampleSchema) := by
  have h := operation_tools_registered_iff exampleSchema
  exact ⟨h.1.mpr (by decide), fun hm => absurd (h.2.1.mp hm) (by decide)⟩

/-- C7: `list-types` is the comma-join of exactly the type-map names that
do not start with the introspection prefix, and no listed name starts with
that prefix. -/
theorem list_types_non_internal (s : GQLSchema) :
    listTypes s = joinSep ", " (nonInternalTypeNames s) ∧
    ∀ n ∈ nonInternalTypeNames s, strStartsWith n "__" = false := by
  refine ⟨rfl, ?_⟩
  intro n hn
  simpa using (List.mem_filter.mp hn).2

/-- C7 witness: the theorem applied to the example schema, at the listed
name "Query". -/
theorem list_types_non_internal_witness :
    strStartsWith "Query" "__" = false ∧
    listTypes exampleSchema = joinSep ", " (nonInternalTypeNames exampleSchema) := by
  have h := list_types_non_internal exampleSchema
  exact ⟨h.2 "Query" (by decide), h.1⟩

theorem append_data_props (pre x : String) (hpre : pre.data ≠ [])
    (hxp : '\n' ∉ pre.data) (hx : '\n' ∉ x.data) :
    (pre ++ x).data ≠ [] ∧ '\n' ∉ (pre ++ x).data := by
  constructor
  · intro hnil
    rw [String.data_append, List.append_eq_nil] at hnil
    exact hpre hnil.1
  · rw [String.data_append, List.mem_append]
    push_neg
    exact ⟨hxp, hx⟩

/-- C8: for a present type, `get-type` returns the printed syntax node when
one exists, and otherwise the synthesized summary whose three lines give
the name, the description or its placeholder, and the runtime kind
label.  The newline-freedom side conditions reflect the GraphQL name
grammar and single-line descriptions. -/
theorem get_type_found_spec (s : GQLSchema) (typeName : String) (t : TypeDef)
    (h : lookupType s typeName = some t) :
    (∀ ast, t.astNode = some ast → getType s typeName = ast) ∧
    (t.astNode = none →
      getType s typeName =
        "Type: " ++ typeName ++ "\nDescription: " ++ t.description.getD "No description" ++
          "\nKind: " ++ t.kind ∧
      ('\n' ∉ typeName.data → '\n' ∉ (t.description.getD "No description").data →
        '\n' ∉ t.kind.data →
        textLines (getType s typeName) =
          ["Type: " ++ typeName,
            "Description: " ++ t.description.getD "No description",
            "Kind: " ++ t.kind])) := by
  refine ⟨?_, ?_⟩
  · intro ast hast
    simp [getType, h, hast]
  · intro hnone
    have hsum : getType s typeName =
        "Type: " ++ typeName ++ "\nDescription: " ++ t.description.getD "No description" ++
          "\nKind: " ++ t.kind := by
      simp [getType, h, hnone]
    refine ⟨hsum, ?_⟩
    intro hn1 hn2 hn3
    have e1 : ("\nDescription: " : String).data =
        '\n' :: ("Description: " : String).data := rfl
    have e2 : ("\nKind: " : String).data = '\n' :: ("Kind: " : String).data := rfl
    have hd : ("Type: " ++ typeName ++ "\nDescription: " ++
          t.description.getD "No description" ++ "\nKind: " ++ t.kind).data =
        (joinSep "\n" ["Type: " ++ typeName,
          "Description: " ++ t.description.getD "No description",
          "Kind: " ++ t.kind]).data := by
      simp [joinSep, String.data_append, e1, e2]
    have hjoin : "Type: " ++ typeName ++ "\nDescription: " ++
        t.description.getD "No description" ++ "\nKind: " ++ t.kind =
        joinSep "\n" ["Type: " ++ typeName,
          "Description: " ++ t.description.getD "No description",
          "Kind: " ++ t.kind] := by
      calc "Type: " ++ typeName ++ "\nDescription: " ++
            t.description.getD "No description" ++ "\nKind: " ++ t.kind =
          String.mk ("Type: " ++ typeName ++ "\nDescription: " ++
            t.description.getD "No description" ++ "\nKind: " ++ t.kind).data :=
            (strMk_data _).symm
        _ = String.mk (joinSep "\n" ["Type: " ++ typeName,
              "Description: " ++ t.description.getD "No description",
              "Kind: " ++ t.kind]).data := by rw [hd]
        _ = joinSep "\n" ["Type: " ++ typeName,
              "Description: " ++ t.description.getD "No description",
              "Kind: " ++ t.kind] := strMk_data _
    rw [hsum, hjoin]
    refine textLines_joinSep _ ?_
    intro x hx
    simp only [List.mem_cons, List.not_mem_nil, or_false] at hx
    rcases hx with hx | hx | hx <;> subst hx
    · exact append_data_props "Type: " typeName (by decide) (by decide) hn1
    · exact append_data_props "Description: " _ (by decide) (by decide) hn2
    · exact append_data_props "Kind: " _ (by decide) (by decide) hn3

/-- C8 witness: the built-in `Boolean` scalar of the example schema has no
syntax node, and `get-type` synthesizes its three-line summary. -/
theorem get_type_found_spec_witness :
    getType exampleSchema "Boolean" =
      "Type: Boolean\nDescription: The `Boolean` scalar type represents `true` or `false`.\nKind: GraphQLScalarType" ∧
    textLines (getType exampleSchema "Boolean") =
      ["Type: Boolean",
        "Description: The `Boolean` scalar type represents `true` or `false`.",
        "Kind: GraphQLScalarType"] := by
  have h := (get_type_found_spec exampleSchema "Boolean" booleanTypeDef (by decide)).2
    (by decide)
  exact ⟨h.1.trans (by decide),
    (h.2 (by decide) (by decide) (by decide)).trans (by decide)⟩

/-- C9: when the schema file read fails at startup, the process exits with
status 1 after writing a diagnostic whose first line carries the resolved
path, and no server with registered tools ever starts. -/
theorem load_failure_exits (resolvedPath : String)
    (build : String → Except String GQLSchema) :
    loadAndStart resolvedPath none build =
      StartupOutcome.exited 1
        ["Error: Schema file not found at " ++ resolvedPath,
          "Usage: node index.mjs [path/to/schema.graphqls]"] ∧
    ∀ tools, loadAndStart resolvedPath none build ≠ StartupOutcome.started tools := by
  refine ⟨rfl, ?_⟩
  intro tools h
  exact StartupOutcome.noConfusion h

/-- C9 witness: the theorem applied at a concrete path and a build function
that is never reached. -/
theorem load_failure_exits_witness :
    loadAndStart "/work/missing.graphqls" none (fun _ => Except.error "unused") =
      StartupOutcome.exited 1
        ["Error: Schema file not found at /work/missing.graphqls",
          "Usage: node index.mjs [path/to/schema.graphqls]"] ∧
    loadAndStart "/work/missing.graphqls" none (fun _ => Except.error "unused") ≠
      StartupOutcome.started ["list-types"] := by
  have h := load_failure_exits "/work/missing.graphqls" (fun _ => Except.error "unused")
  exact ⟨h.1.trans (by decide), h.2 ["list-types"]⟩

/-- C10: the pattern "(" — an invalid regular expression — makes the
`search-schema` handler throw instead of producing a text payload, on
every schema. -/
theorem search_schema_invalid_pattern_throws (s : GQLSchema) :
    searchSchema s "(" = none ∧ ∀ text, searchSchema s "(" ≠ some text := by
  refine ⟨rfl, ?_⟩
  intro text h
  have h0 : (none : Option String) = some text := h
  exact Option.noConfusion h0

/-- C10 witness: the theorem applied to the example schema. -/
theorem search_schema_invalid_pattern_throws_witness :
    searchSchema exampleSchema "(" = none ∧
    searchSchema exampleSchema "(" ≠
      some "Matching types: None\nMatching fields: None" := by
  have h := search_schema_invalid_pattern_throws exampleSchema
  exact ⟨h.1, h.2 "Matching types: None\nMatching fields: None"⟩

